import Mathlib

/-!
Verification development for the RealRIRs dataset-abstraction library.

The definitions below are a shallow embedding of the library's core
(realrirs/base.py and realrirs/datasets.py):

Paths are modelled as their component lists (pathlib.Path.parts); a
filesystem is the list of file paths it holds.  Glob patterns are given
pre-split on "/" (for example the source pattern string "**/*.wav"
becomes the component list ["**", "*.wav"]).  Numpy arrays are modelled
by the shape they carry, nested Python lists and tuples by a rose tree;
fallible Python code is modelled in the Except monad, an AssertionError
or a raised exception becoming an error value.  Memoized instance state
(the lazily populated file list, IR index and decode cache of base.py)
is passed explicitly.
-/

namespace RealRIRs

/-- A filesystem path, as the list of its components. -/
abbrev Path := List String

/-- The fnmatch-style match of one path component against one pattern
component, supporting the literal characters and the star wildcard used by
the repository's patterns (fnmatch.fnmatch on a single component). -/
def fnmatchChars : List Char → List Char → Bool
  | [], [] => true
  | [], _ :: _ => false
  | '*' :: ps, [] => fnmatchChars ps []
  | '*' :: ps, c :: cs => fnmatchChars ps (c :: cs) || fnmatchChars ('*' :: ps) cs
  | _ :: _, [] => false
  | p :: ps, c :: cs => p == c && fnmatchChars ps cs
termination_by ps cs => (cs.length, ps.length)

/-- Glob-pattern match of a relative path against a pattern's component
list, with a doubled star matching zero or more directory levels
(pathlib.Path.glob semantics for the patterns the repository declares). -/
def globMatch : List String → List String → Bool
  | [], [] => true
  | [], _ :: _ => false
  | "**" :: ps, [] => globMatch ps []
  | "**" :: ps, q :: qs => globMatch ps (q :: qs) || globMatch ("**" :: ps) qs
  | _ :: _, [] => false
  | p :: ps, q :: qs => fnmatchChars p.data q.data && globMatch ps qs
termination_by ps qs => (qs.length, ps.length)

/-- Right-anchored match of a path against a relative pattern, as
pathlib.PurePath.match does for base.py's exclude filter: the last
pattern-many components of the path are matched componentwise. -/
def pathMatch (f : Path) (pat : List String) : Bool :=
  decide (pat.length ≤ f.length) &&
    ((f.drop (f.length - pat.length)).zip pat).all fun qp => fnmatchChars qp.2.data qp.1.data

/-- The sort order of pathlib.Path values: PurePath comparison orders
paths by their case-normalized component lists (case normalization is the
identity on POSIX), lexicographically, each component compared by code
point. -/
def pathLeB (a b : Path) : Bool := decide (a.map String.data ≤ b.map String.data)

/-- A stable sort of paths in pathlib's path order, modelling Python's
sorted() applied to pathlib.Path values. -/
def sortPaths (l : List Path) : List Path := l.mergeSort pathLeB

/-- The sorted expansion of one include pattern against the root directory:
sorted(self.root.glob(p)) in FileIRDataset._list_files.  The ambient
filesystem is the list fs of all file paths; root.glob(p) yields every
file under root whose path relative to root matches the pattern, and a
root no file lies under (a missing directory) yields nothing. -/
def rootGlobSorted (root : Path) (fs : List Path) (pat : List String) : List Path :=
  sortPaths (fs.filter fun f => root.isPrefixOf f && globMatch pat (f.drop root.length))

/-- FileIRDataset._list_files: for each include pattern in declaration
order, the sorted glob expansion, keeping only files that match no
exclude pattern. -/
def defaultListFiles (root : Path) (fs : List Path) (pats excls : List (List String)) :
    List Path :=
  pats.flatMap fun p =>
    (rootGlobSorted root fs p).filter fun f => !(excls.any fun e => pathMatch f e)

/-- Lazy population of a memoized instance attribute: if the field is
absent compute and store it, afterwards return the stored value
(FileIRDataset._populate_files_list and _populate_irs_list). -/
def populateOnce {α : Type} (st : Option α) (compute : Unit → α) : α × Option α :=
  match st with
  | some v => (v, some v)
  | none =>
    let v := compute ()
    (v, some v)

/-- FileIRDataset.list_files over the memoized files-list state. -/
def list_files (root : Path) (fs : List Path) (pats excls : List (List String))
    (st : Option (List Path)) : List Path × Option (List Path) :=
  populateOnce st fun _ => defaultListFiles root fs pats excls

/-- Lookup of a key in an association-list model of a Python dict. -/
def lookupK {κ α : Type} [DecidableEq κ] (key : κ) : List (κ × α) → Option α
  | [] => none
  | (k, v) :: rest => if key = k then some v else lookupK key rest

/-- CacheMixin.cached: if the key is absent call the function, store and
return its result, otherwise return the stored value.  The Bool records
whether the function was invoked by this call. -/
def cached {κ α : Type} [DecidableEq κ] (cache : List (κ × α)) (key : κ) (func : Unit → α) :
    α × List (κ × α) × Bool :=
  match lookupK key cache with
  | some v => (v, cache, false)
  | none =>
    let v := func ()
    (v, (key, v) :: cache, true)

/-- The module-level binding an optional import leaves behind in
datasets.py: the real library when importing succeeds, and otherwise a
DelayedImportError sentinel remembering the library's name (the case
where importing raises ImportError). -/
inductive ModuleBinding where
  | real : ModuleBinding
  | delayed : String → ModuleBinding
deriving DecidableEq

/-- The try/except around an optional import in datasets.py.  It is total:
importing the module never fails, whether or not the library is
available. -/
def tryImportOptional (available : Bool) (libname : String) : ModuleBinding :=
  if available then .real else .delayed libname

/-- A single-quote character, written by code point to build Python's repr
of a string. -/
def squoteChar : Char := Char.ofNat 39

/-- Python's repr of a plain string: the string between single quotes. -/
def pyReprStr (s : String) : String :=
  String.singleton squoteChar ++ s ++ String.singleton squoteChar

/-- The message DelayedImportError.__getattr__ raises. -/
def delayedImportMsg (libname : String) : String :=
  "Please install " ++ pyReprStr libname ++ " to perform this operation."

/-- Attribute access on a module binding: any attribute of the delayed
sentinel raises the install-hint ImportError
(DelayedImportError.__getattr__); attributes of a real module resolve. -/
def getattrBinding : ModuleBinding → String → Except String String
  | .real, attr => .ok attr
  | .delayed libname, _ => .error (delayedImportMsg libname)

/-- An in-memory audio buffer: a native array carrying its shape (a numpy
ndarray, of which only the shape matters to the validation utility), or a
Python list or tuple of buffers, which has no shape attribute of its
own. -/
inductive Buf where
  | native : List Nat → Buf
  | pylist : List Buf → Buf

mutual

/-- base.shape: the shape attribute when the value has one, otherwise the
recursive shape of a nested sequence, asserting that all the elements
share one identical shape (len(set(shapes)) == 1, which also fails on an
empty sequence). -/
def shape : Buf → Except String (List Nat)
  | .native sh => .ok sh
  | .pylist things =>
    match shapeAll things with
    | .error e => .error e
    | .ok [] => .error "AssertionError"
    | .ok (s :: rest) =>
      if rest.all fun t => t == s then .ok (things.length :: s)
      else .error "AssertionError"

/-- Shapes of the elements of a sequence, left to right, propagating the
first failure (list(map(shape, things)) inside base.shape). -/
def shapeAll : List Buf → Except String (List (List Nat))
  | [] => .ok []
  | b :: bs =>
    match shape b with
    | .error e => .error e
    | .ok s =>
      match shapeAll bs with
      | .error e => .error e
      | .ok ss => .ok (s :: ss)

end

/-- Python's repr of a shape tuple, as the f-string of check_nonmono
renders it. -/
def reprShape : List Nat → String
  | [] => "()"
  | [n] => "(" ++ toString n ++ ",)"
  | ns => "(" ++ String.intercalate ", " (ns.map toString) ++ ")"

/-- The message of the assertion in base.check_nonmono, carrying the
offending shape. -/
def shapeErrMsg (s : List Nat) : String :=
  "Shape should be (channels, samples) but is " ++ reprShape s

/-- base.check_nonmono: assert that the buffer's shape has exactly two
dimensions and that the first (the channel axis) is under 10, raising an
AssertionError carrying the offending shape otherwise. -/
def check_nonmono (x : Buf) : Except String Unit :=
  match shape x with
  | .error e => .error e
  | .ok s =>
    if s.length = 2 ∧ s.headD 0 < 10 then .ok ()
    else .error (shapeErrMsg s)

/-- A value yielded inside a tuple by a Python generator: an IR name, an
integer, or a buffer.  Used to model the tuples _getall implementations
yield, whose arity the base class destructures. -/
inductive PyVal (Name : Type) where
  | vname : Name → PyVal Name
  | vint : Nat → PyVal Name
  | vbuf : Buf → PyVal Name

/-- A message of Python's tuple unpacking failure. -/
def unpackShortMsg (got : Nat) : String :=
  "ValueError: not enough values to unpack (expected 3, got " ++ toString got ++ ")"

/-- Python's destructuring of one yielded tuple into three variables, as
the loop header of FileIRDataset.getall performs: it raises ValueError
unless the tuple has exactly three items. -/
def unpack3 {Name : Type} :
    List (PyVal Name) → Except String (PyVal Name × PyVal Name × PyVal Name)
  | [a, b, c] => .ok (a, b, c)
  | l =>
    if l.length < 3 then .error (unpackShortMsg l.length)
    else .error "ValueError: too many values to unpack (expected 3)"

/-- Coercion of the third unpacked slot to a buffer: check_nonmono applied
to a value that is neither an array nor a sequence raises (map over a
non-iterable is a TypeError), so only buffer values continue. -/
def asBuf {Name : Type} : PyVal Name → Except String Buf
  | .vbuf b => .ok b
  | _ => .error "TypeError: argument is not iterable"

/-- One iteration of FileIRDataset.getall: destructure the yielded tuple
into name, sample rate and IR, validate the IR's shape, and yield the
triple unchanged. -/
def getallStep {Name : Type} (item : List (PyVal Name)) :
    Except String (PyVal Name × PyVal Name × Buf) :=
  match unpack3 item with
  | .error e => .error e
  | .ok (n, sr, irv) =>
    match asBuf irv with
    | .error e => .error e
    | .ok ir =>
      match check_nonmono ir with
      | .error e => .error e
      | .ok _ => .ok (n, sr, ir)

/-- FileIRDataset.getall, driven over the tuples the underlying _getall
yields: the whole enumeration, stopping at the first raised error. -/
def getallPy {Name : Type} :
    List (List (PyVal Name)) → Except String (List (PyVal Name × PyVal Name × Buf))
  | [] => .ok []
  | item :: rest =>
    match getallStep item with
    | .error e => .error e
    | .ok t =>
      match getallPy rest with
      | .error e => .error e
      | .ok ts => .ok (t :: ts)

/-- FileIRDataset.__getitem__ after index population: retrieve the IR from
the adapter, validate its shape, and return the buffer unchanged. -/
def pyGetitem {Name : Type} (get_ir : Name → Except String Buf) (name : Name) :
    Except String Buf :=
  match get_ir name with
  | .error e => .error e
  | .ok ir =>
    match check_nonmono ir with
    | .error e => .error e
    | .ok _ => .ok ir

/-- Numpy's transpose as it acts on the shape of an array (ir.T in
KEMARDataset). -/
def bufT : Buf → Buf
  | .native sh => .native sh.reverse
  | .pylist es => .pylist es

/-- KEMARDataset._getall: for every listed file, load the MATLAB struct
(the oracle mat gives each file's labelled impulse responses) and yield,
for each labelled entry, the two-element tuple ((file, label), ir.T). -/
def kemarGetallItems (files : List Path) (mat : Path → List (String × Buf)) :
    List (List (PyVal (Path × String))) :=
  files.flatMap fun f =>
    (mat f).map fun ti => [PyVal.vname (f, ti.1), PyVal.vbuf (bufT ti.2)]

/-- One audio file on disk as the soundfile library reports it: its path,
channel count, frame count and sample rate. -/
structure SfEntry where
  path : Path
  channels : Nat
  frames : Nat
  samplerate : Nat
deriving DecidableEq

/-- datasets._soundfile_info: open the file and read (channels, frames,
samplerate) from its header; opening a file that is not on disk
raises. -/
def soundfileInfo (disk : List SfEntry) (f : Path) : Except String (Nat × Nat × Nat) :=
  match disk.find? fun e => e.path == f with
  | some e => .ok (e.channels, e.frames, e.samplerate)
  | none => .error "LibsndfileError: Error opening file."

/-- SoundfileDataset._get_ir: read the file's samples, reshaping a mono
(frames,) array to (1, frames) and transposing a (frames, channels)
array to (channels, frames); a file that is not on disk raises. -/
def soundfileGetIR (disk : List SfEntry) (name : Path) : Except String Buf :=
  match disk.find? fun e => e.path == name with
  | some e =>
    .ok (if e.channels = 1 then Buf.native [1, e.frames]
         else Buf.native [e.channels, e.frames])
  | none => .error "LibsndfileError: Error opening file."

/-- The class-level configuration of a soundfile-backed dataset adapter
(root, the ambient filesystem, include and exclude patterns). -/
structure SfConfig where
  root : Path
  disk : List SfEntry
  file_patterns : List (List String)
  exclude_patterns : List (List String)

/-- The lazily populated per-instance state of a file-based dataset: the
memoized file list and the memoized IR index. -/
structure SfState where
  files_list : Option (List Path)
  irs_list : Option (List (Path × Nat × Nat × Nat))
deriving DecidableEq

/-- The paths of every file on disk. -/
def sfDiskPaths (cfg : SfConfig) : List Path := cfg.disk.map SfEntry.path

/-- FileIRDataset.list_files for a soundfile-backed adapter, updating the
memoized files-list state. -/
def sfListFiles (cfg : SfConfig) (st : SfState) : List Path × SfState :=
  let r := populateOnce st.files_list fun _ =>
    defaultListFiles cfg.root (sfDiskPaths cfg) cfg.file_patterns cfg.exclude_patterns
  (r.1, { st with files_list := r.2 })

/-- SoundfileDataset._list_irs applied to an already-computed file list:
one (name, channels, frames, samplerate) record per file, read from each
file's header, propagating the first failure. -/
def sfListIRsRaw (cfg : SfConfig) : List Path → Except String (List (Path × Nat × Nat × Nat))
  | [] => .ok []
  | f :: rest =>
    match soundfileInfo cfg.disk f with
    | .error e => .error e
    | .ok (c, n, sr) =>
      match sfListIRsRaw cfg rest with
      | .error e => .error e
      | .ok l => .ok ((f, c, n, sr) :: l)

/-- FileIRDataset._populate_irs_list for a soundfile-backed adapter: if
the index is not yet memoized, populate the file list and build the
index from it; a failure while building leaves the index unpopulated. -/
def sfPopulateIRs (cfg : SfConfig) (st : SfState) :
    Except String (List (Path × Nat × Nat × Nat)) × SfState :=
  match st.irs_list with
  | some l => (.ok l, st)
  | none =>
    let r := sfListFiles cfg st
    match sfListIRsRaw cfg r.1 with
    | .ok l => (.ok l, { r.2 with irs_list := some l })
    | .error e => (.error e, r.2)

/-- FileIRDataset.__getitem__ for a soundfile-backed adapter: populate the
index, then resolve the name through the adapter's _get_ir and validate
the shape.  Membership of the name in the index is not consulted. -/
def sfGetitem (cfg : SfConfig) (st : SfState) (name : Path) :
    Except String Buf × SfState :=
  let r := sfPopulateIRs cfg st
  match r.1 with
  | .error e => (.error e, r.2)
  | .ok _ => (pyGetitem (soundfileGetIR cfg.disk) name, r.2)

/-- BellVarechoicDataset._list_files: three fixed paths under the root,
returned without consulting the filesystem. -/
def bellListFiles (root : Path) : List Path :=
  [root ++ ["IR_00.mat"], root ++ ["IR_43.mat"], root ++ ["IR_100.mat"]]

/-- BinaryArrayDataset._list_irs: one record per file, channel count 1,
the sample count computed by Python's true division of the file size in
bytes by the element size (exact for these operands, so modelled in the
rationals), and the declared fixed sample rate.  No divisibility check is
performed and no error is raised. -/
def binaryListIRs (files : List (Path × Nat)) (itemsize : Nat) (sample_rate : Nat) :
    List (Path × Nat × ℚ × Nat) :=
  files.map fun fsz => (fsz.1, 1, (fsz.2 : ℚ) / (itemsize : ℚ), sample_rate)

/-- A concrete OpenAIRDataset-style configuration: include pattern
"**/*.wav", exclude pattern "examples/*", root r, the disk holding
r/a.wav and r/examples/b.wav. -/
def openAIRModel : SfConfig where
  root := ["r"]
  disk := [⟨["r", "a.wav"], 1, 100, 48000⟩, ⟨["r", "examples", "b.wav"], 1, 50, 48000⟩]
  file_patterns := [["**", "*.wav"]]
  exclude_patterns := [["examples", "*"]]

/-! Theorems. -/

theorem pathLeB_trans (a b c : Path) (h1 : pathLeB a b = true) (h2 : pathLeB b c = true) :
    pathLeB a c = true := by
  simp only [pathLeB, decide_eq_true_eq] at h1 h2 ⊢
  exact le_trans h1 h2

theorem pathLeB_total (a b : Path) : (pathLeB a b || pathLeB b a) = true := by
  simp only [pathLeB, Bool.or_eq_true, decide_eq_true_eq]
  exact le_total _ _

theorem sortPaths_pairwise (l : List Path) :
    List.Pairwise (fun a b : Path => pathLeB a b = true) (sortPaths l) :=
  List.sorted_mergeSort pathLeB_trans pathLeB_total l

theorem check_nonmono_ok_iff (x : Buf) :
    check_nonmono x = Except.ok () ↔ ∃ c n, shape x = Except.ok [c, n] ∧ c < 10 := by
  unfold check_nonmono
  cases hs : shape x with
  | error e => simp
  | ok s =>
    dsimp only
    by_cases hcond : s.length = 2 ∧ s.headD 0 < 10
    · obtain ⟨c, n, rfl⟩ := List.length_eq_two.mp hcond.1
      have hc : c < 10 := by simpa using hcond.2
      exact iff_of_true (by rw [if_pos hcond]) ⟨c, n, rfl, hc⟩
    · refine iff_of_false (by rw [if_neg hcond]; simp) ?_
      rintro ⟨c, n, hcn, hc⟩
      obtain rfl : s = [c, n] := Except.ok.inj hcn
      exact hcond ⟨rfl, by simpa using hc⟩

theorem getallStep_ok_shape {Name : Type} (item : List (PyVal Name))
    (t : PyVal Name × PyVal Name × Buf) (h : getallStep item = Except.ok t) :
    ∃ c n, shape t.2.2 = Except.ok [c, n] ∧ c < 10 := by
  unfold getallStep at h
  cases hu : unpack3 item with
  | error e => rw [hu] at h; cases h
  | ok v =>
    rw [hu] at h
    obtain ⟨n, sr, irv⟩ := v
    dsimp only at h
    cases hb : asBuf irv with
    | error e => rw [hb] at h; cases h
    | ok ir =>
      rw [hb] at h
      dsimp only at h
      cases hc : check_nonmono ir with
      | error e => rw [hc] at h; cases h
      | ok u =>
        rw [hc] at h
        dsimp only at h
        cases h
        obtain ⟨c, m, hcm, hlt⟩ := (check_nonmono_ok_iff ir).mp (by cases u; exact hc)
        exact ⟨c, m, hcm, hlt⟩

theorem getallPy_ok_mem_shape {Name : Type} (items : List (List (PyVal Name)))
    (out : List (PyVal Name × PyVal Name × Buf)) (h : getallPy items = Except.ok out)
    (t : PyVal Name × PyVal Name × Buf) (ht : t ∈ out) :
    ∃ c n, shape t.2.2 = Except.ok [c, n] ∧ c < 10 := by
  induction items generalizing out with
  | nil =>
    rw [getallPy] at h
    cases h
    cases ht
  | cons item rest ih =>
    rw [getallPy] at h
    cases hs : getallStep item with
    | error e => rw [hs] at h; cases h
    | ok t0 =>
      rw [hs] at h
      cases hr : getallPy rest with
      | error e => rw [hr] at h; cases h
      | ok ts =>
        rw [hr] at h
        cases h
        rcases List.mem_cons.mp ht with rfl | hmem
        · exact getallStep_ok_shape item t hs
        · exact ih ts hr hmem

/-- C1: BinaryArrayDataset._list_irs computes each record's sample count
by true division of the file size by the element size.  A 4000-byte file
of 4-byte elements yields one record with sample count 1000, but a
4001-byte file yields one record whose sample count is the non-integral
value 4001/4 — no malformed-file error is raised (the function is total),
contradicting the specified hard-error behaviour. -/
theorem binaryArray_index_fractional_sample_count :
    binaryListIRs [(["f.bin"], 4001)] 4 48000
      = [(["f.bin"], 1, (4001 : ℚ) / 4, 48000)]
    ∧ (∀ n : ℕ, (4001 : ℚ) / 4 ≠ (n : ℚ))
    ∧ binaryListIRs [(["g.bin"], 4000)] 4 48000
      = [(["g.bin"], 1, ((1000 : ℕ) : ℚ), 48000)] := by
  refine ⟨by norm_num [binaryListIRs], ?_, by norm_num [binaryListIRs]⟩
  intro n h
  have h4 : (4001 : ℚ) = 4 * (n : ℚ) := by
    field_simp at h
    linarith
  have h5 : (4001 : ℕ) = 4 * n := by exact_mod_cast h4
  omega

/-- C2: KEMARDataset._getall yields two-element tuples ((file, label),
ir.T), so the base class enumeration FileIRDataset.getall, which
destructures each yielded tuple into (name, sr, ir), fails with a
ValueError on the first item instead of producing (name, sample_rate, IR)
triples matching the Index. -/
theorem kemar_getall_unpacking_fails :
    getallPy (kemarGetallItems [["root", "KEMAR", "brir.mat"]]
        (fun _ => [("L", Buf.native [96000, 2])]))
      = Except.error (unpackShortMsg 2) := rfl

/-- C3: every IR handed out by single-item lookup or by full enumeration
has passed check_nonmono: its shape has exactly two dimensions with the
channel axis under 10, and the buffer is returned exactly as the adapter
produced it; a buffer violating the check makes the lookup raise the
assertion message carrying the offending shape. -/
theorem getall_getitem_validate_shape :
    (∀ (Name : Type) (get_ir : Name → Except String Buf) (name : Name) (ir : Buf),
        pyGetitem get_ir name = Except.ok ir →
          get_ir name = Except.ok ir ∧ ∃ c n, shape ir = Except.ok [c, n] ∧ c < 10)
    ∧ (∀ (Name : Type) (get_ir : Name → Except String Buf) (name : Name) (ir : Buf)
        (s : List Nat),
        get_ir name = Except.ok ir → shape ir = Except.ok s →
          ¬(s.length = 2 ∧ s.headD 0 < 10) →
          pyGetitem get_ir name = Except.error (shapeErrMsg s))
    ∧ (∀ (Name : Type) (items : List (List (PyVal Name)))
        (out : List (PyVal Name × PyVal Name × Buf)),
        getallPy items = Except.ok out →
          ∀ t ∈ out, ∃ c n, shape t.2.2 = Except.ok [c, n] ∧ c < 10) := by
  refine ⟨?_, ?_, ?_⟩
  · intro Name get_ir name ir h
    unfold pyGetitem at h
    cases hg : get_ir name with
    | error e => rw [hg] at h; cases h
    | ok ir0 =>
      rw [hg] at h
      dsimp only at h
      cases hc : check_nonmono ir0 with
      | error e => rw [hc] at h; cases h
      | ok u =>
        rw [hc] at h
        dsimp only at h
        cases h
        exact ⟨rfl, (check_nonmono_ok_iff ir).mp (by cases u; exact hc)⟩
  · intro Name get_ir name ir s hg hs hbad
    have hchk : check_nonmono ir = Except.error (shapeErrMsg s) := by
      unfold check_nonmono
      rw [hs]
      dsimp only
      rw [if_neg hbad]
    unfold pyGetitem
    rw [hg]
    dsimp only
    rw [hchk]
  · intro Name items out h t ht
    exact getallPy_ok_mem_shape items out h t ht

/-- Closed instance of the validation theorem: a two-channel buffer
passes through unchanged with its shape validated. -/
theorem getall_getitem_validate_shape_witness :
    (fun _ : Unit => (Except.ok (Buf.native [2, 5]) : Except String Buf)) ()
        = Except.ok (Buf.native [2, 5])
    ∧ ∃ c n, shape (Buf.native [2, 5]) = Except.ok [c, n] ∧ c < 10 :=
  getall_getitem_validate_shape.1 Unit
    (fun _ => (Except.ok (Buf.native [2, 5]) : Except String Buf)) ()
    (Buf.native [2, 5]) rfl

unseal fnmatchChars globMatch List.merge List.mergeSort in
/-- C4, counterexample: FileIRDataset.__getitem__ never consults the
Index.  In the OpenAIR configuration the excluded file examples/b.wav is
absent from the Index, yet requesting it returns its decoded buffer
instead of raising a lookup error. -/
theorem sfGetitem_ignores_index_membership :
    (sfPopulateIRs openAIRModel ⟨none, none⟩).1
        = Except.ok [(["r", "a.wav"], 1, 100, 48000)]
    ∧ (["r", "examples", "b.wav"] : Path) ≠ ["r", "a.wav"]
    ∧ (sfGetitem openAIRModel ⟨none, none⟩ ["r", "examples", "b.wav"]).1
        = Except.ok (Buf.native [1, 50]) :=
  ⟨rfl, by decide, rfl⟩

/-- C4, amended: with the Index already populated, a lookup whose name the
adapter cannot resolve (no such file on disk) raises and leaves the
dataset state — file list, index and everything else in it — exactly as
it was. -/
theorem sfGetitem_unresolvable_error_state_unchanged (cfg : SfConfig) (st : SfState)
    (l : List (Path × Nat × Nat × Nat)) (name : Path)
    (hpop : st.irs_list = some l)
    (habs : (cfg.disk.find? fun e => e.path == name) = none) :
    sfGetitem cfg st name = (Except.error "LibsndfileError: Error opening file.", st) := by
  unfold sfGetitem sfPopulateIRs
  rw [hpop]
  dsimp only
  unfold pyGetitem soundfileGetIR
  rw [habs]

/-- Closed instance of the amended C4 theorem at a concrete dataset,
populated index and unresolvable name. -/
theorem sfGetitem_unresolvable_error_state_unchanged_witness :
    sfGetitem openAIRModel ⟨none, some [(["r", "a.wav"], 1, 100, 48000)]⟩ ["z.wav"]
      = (Except.error "LibsndfileError: Error opening file.",
          ⟨none, some [(["r", "a.wav"], 1, 100, 48000)]⟩) :=
  sfGetitem_unresolvable_error_state_unchanged openAIRModel
    ⟨none, some [(["r", "a.wav"], 1, 100, 48000)]⟩
    [(["r", "a.wav"], 1, 100, 48000)] ["z.wav"] rfl rfl

unseal fnmatchChars globMatch List.merge List.mergeSort in
/-- C5, counterexample: with more than one include pattern the file list
is the concatenation of per-pattern sorted chunks and need not be sorted
overall — here y.mat (from the first pattern) precedes x.wav (from the
second) although x.wav sorts before it. -/
theorem list_files_multi_pattern_not_sorted :
    defaultListFiles ["r"] [["r", "x.wav"], ["r", "y.mat"]]
        [["**", "*.mat"], ["**", "*.wav"]] []
      = [["r", "y.mat"], ["r", "x.wav"]]
    ∧ pathLeB ["r", "y.mat"] ["r", "x.wav"] = false :=
  ⟨by decide, by decide⟩

/-- C5, amended: list_files returns the memoized result unchanged on
every repeated call (idempotent lazy population, no re-scan), each
include pattern's chunk of the result is sorted in pathlib's path order
(component lists compared lexicographically), and with a single include
pattern the whole result is sorted. -/
theorem list_files_sorted_per_pattern_and_memoized :
    (∀ (root : Path) (fs : List Path) (pats excls : List (List String))
        (st : Option (List Path)),
        list_files root fs pats excls ((list_files root fs pats excls st).2)
          = list_files root fs pats excls st)
    ∧ (∀ (root : Path) (fs : List Path) (p : List String) (excls : List (List String)),
        List.Pairwise (fun a b : Path => pathLeB a b = true)
          ((rootGlobSorted root fs p).filter fun f => !(excls.any fun e => pathMatch f e)))
    ∧ (∀ (root : Path) (fs : List Path) (p : List String) (excls : List (List String)),
        List.Pairwise (fun a b : Path => pathLeB a b = true)
          (defaultListFiles root fs [p] excls)) := by
  refine ⟨?_, ?_, ?_⟩
  · intro root fs pats excls st
    cases st <;> rfl
  · intro root fs p excls
    exact List.Pairwise.sublist (List.filter_sublist _) (sortPaths_pairwise _)
  · intro root fs p excls
    have h : defaultListFiles root fs [p] excls
        = (rootGlobSorted root fs p).filter fun f => !(excls.any fun e => pathMatch f e) := by
      simp [defaultListFiles]
    rw [h]
    exact List.Pairwise.sublist (List.filter_sublist _) (sortPaths_pairwise _)

unseal fnmatchChars globMatch List.merge List.mergeSort in
theorem openair_scenario_file_list :
    defaultListFiles ["r"] [["r", "a.wav"], ["r", "examples", "b.wav"]]
        [["**", "*.wav"]] [["examples", "*"]] = [["r", "a.wav"]] := by
  decide

/-- C6: a file matching any exclude pattern never appears in the file
list, even when it matches an include pattern; in the OpenAIR scenario
the root holding a.wav and examples/b.wav lists a.wav only. -/
theorem exclude_patterns_strictly_remove :
    (∀ (root : Path) (fs : List Path) (pats excls : List (List String))
        (f : Path) (e : List String),
        f ∈ defaultListFiles root fs pats excls → e ∈ excls → pathMatch f e = false)
    ∧ defaultListFiles ["r"] [["r", "a.wav"], ["r", "examples", "b.wav"]]
        [["**", "*.wav"]] [["examples", "*"]] = [["r", "a.wav"]] := by
  constructor
  · intro root fs pats excls f e hf he
    simp only [defaultListFiles, List.mem_flatMap] at hf
    obtain ⟨p, _, hfp⟩ := hf
    have hcond := (List.mem_filter.mp hfp).2
    rw [Bool.not_eq_eq_eq_not, Bool.not_true] at hcond
    simpa using List.any_eq_false.mp hcond e he
  · exact openair_scenario_file_list

unseal fnmatchChars globMatch List.merge List.mergeSort in
/-- Closed instance of the exclusion theorem: the listed file a.wav
matches no exclude pattern. -/
theorem exclude_patterns_strictly_remove_witness :
    pathMatch ["r", "a.wav"] ["examples", "*"] = false :=
  exclude_patterns_strictly_remove.1 ["r"] [["r", "a.wav"]] [["**", "*.wav"]]
    [["examples", "*"]] ["r", "a.wav"] ["examples", "*"] (by decide) (by decide)

/-- C7: CacheMixin.cached returns the stored value untouched when the key
is present (the compute function is not invoked and the cache is
unchanged), and when the key is absent it invokes the function exactly
once, stores the result, and every later call with that key returns that
stored value without invoking the function again. -/
theorem cached_returns_stored_and_computes_once {κ α : Type} [DecidableEq κ]
    (cache : List (κ × α)) (key : κ) (func : Unit → α) :
    (∀ v, lookupK key cache = some v → cached cache key func = (v, cache, false))
    ∧ (lookupK key cache = none →
        cached cache key func = (func (), (key, func ()) :: cache, true)
          ∧ cached ((key, func ()) :: cache) key func
              = (func (), (key, func ()) :: cache, false)) := by
  constructor
  · intro v hv
    unfold cached
    rw [hv]
  · intro hnone
    constructor
    · unfold cached
      rw [hnone]
    · unfold cached lookupK
      rw [if_pos rfl]

/-- Closed instance of the caching theorem: a first call computes and
stores, the second call returns the stored entry without recomputing. -/
theorem cached_returns_stored_and_computes_once_witness :
    cached ([] : List (Nat × Nat)) 7 (fun _ => 42) = (42, [(7, 42)], true)
    ∧ cached [(7, 42)] 7 (fun _ => 42) = (42, [(7, 42)], false) :=
  (cached_returns_stored_and_computes_once ([] : List (Nat × Nat)) 7 (fun _ => 42)).2 rfl

/-- C8: the optional imports of datasets.py always succeed — a missing
library leaves a delayed sentinel binding — attribute access on an
available library's binding works, and the first attribute access on a
missing library's binding raises the install-hint error, whose text
contains the library's name. -/
theorem optional_import_defers_error (libname attr : String) :
    tryImportOptional false libname = ModuleBinding.delayed libname
    ∧ getattrBinding (tryImportOptional true libname) attr = Except.ok attr
    ∧ getattrBinding (tryImportOptional false libname) attr
        = Except.error (delayedImportMsg libname)
    ∧ libname.data <:+: (delayedImportMsg libname).data := by
  refine ⟨rfl, rfl, rfl, ?_⟩
  have h : (delayedImportMsg libname).data
      = ("Please install ".data ++ [squoteChar]) ++ libname.data
        ++ ([squoteChar] ++ " to perform this operation.".data) := by
    simp [delayedImportMsg, pyReprStr, String.data_append, String.singleton]
  rw [h]
  exact List.infix_append _ _ _

/-- C9, counterexample: BellVarechoicDataset._list_files returns its
three fixed paths whatever the root is, so a dataset whose root does not
exist still reports a non-empty file list. -/
theorem bell_list_files_ignores_missing_root :
    bellListFiles ["nonexistent"]
      = [["nonexistent", "IR_00.mat"], ["nonexistent", "IR_43.mat"],
          ["nonexistent", "IR_100.mat"]]
    ∧ bellListFiles ["nonexistent"] ≠ [] :=
  ⟨rfl, by decide⟩

/-- C9, amended: for the default glob-based file enumeration, a root
under which no file exists (in particular a root directory that does not
exist) yields an empty file list and no error. -/
theorem defaultListFiles_missing_root_empty (root : Path) (fs : List Path)
    (pats excls : List (List String))
    (h : ∀ f ∈ fs, root.isPrefixOf f = false) :
    defaultListFiles root fs pats excls = [] := by
  have hglob : ∀ p, rootGlobSorted root fs p = [] := by
    intro p
    unfold rootGlobSorted
    have hfil : (fs.filter fun f => root.isPrefixOf f && globMatch p (f.drop root.length))
        = [] := by
      rw [List.filter_eq_nil_iff]
      intro f hf
      simp [h f hf]
    rw [hfil]
    simp [sortPaths, List.mergeSort_nil]
  induction pats with
  | nil => rfl
  | cons p ps ih =>
    unfold defaultListFiles at ih ⊢
    rw [List.flatMap_cons, hglob p, ih]
    rfl

/-- Closed instance of the amended C9 theorem: a root holding nothing
yields an empty file list. -/
theorem defaultListFiles_missing_root_empty_witness :
    defaultListFiles ["nope"] [["r", "a.wav"]] [["**", "*.wav"]] [] = [] :=
  defaultListFiles_missing_root_empty ["nope"] [["r", "a.wav"]] [["**", "*.wav"]] []
    (by decide)

theorem shapeAll_ok_nil : ∀ (bs : List Buf), shapeAll bs = Except.ok [] → bs = []
  | [], _ => rfl
  | b :: bs, h => by
    unfold shapeAll at h
    cases hb : shape b with
    | error e => rw [hb] at h; cases h
    | ok s =>
      rw [hb] at h
      dsimp only at h
      cases hbs : shapeAll bs with
      | error e => rw [hbs] at h; cases h
      | ok ss => rw [hbs] at h; dsimp only at h; cases h

mutual

theorem shape_error_assertion : ∀ (b : Buf) (e : String),
    shape b = Except.error e → e = "AssertionError"
  | .native sh, e, h => by simp [shape] at h
  | .pylist things, e, h => by
    unfold shape at h
    cases hall : shapeAll things with
    | error e2 =>
      rw [hall] at h
      try dsimp only at h
      cases h
      exact shapeAll_error_assertion things _ hall
    | ok ss =>
      rw [hall] at h
      exact match ss, h with
        | [], h => by
          dsimp only at h
          exact (Except.error.inj h).symm
        | s :: rest, h => by
          dsimp only at h
          by_cases hb : rest.all fun t => t == s
          · rw [if_pos hb] at h
            cases h
          · rw [if_neg hb] at h
            exact (Except.error.inj h).symm

theorem shapeAll_error_assertion : ∀ (bs : List Buf) (e : String),
    shapeAll bs = Except.error e → e = "AssertionError"
  | [], e, h => by simp [shapeAll] at h
  | b :: bs, e, h => by
    unfold shapeAll at h
    cases hb : shape b with
    | error e2 =>
      rw [hb] at h
      dsimp only at h
      cases h
      exact shape_error_assertion b _ hb
    | ok s =>
      rw [hb] at h
      dsimp only at h
      cases hbs : shapeAll bs with
      | error e2 =>
        rw [hbs] at h
        dsimp only at h
        cases h
        exact shapeAll_error_assertion bs _ hbs
      | ok ss => rw [hbs] at h; dsimp only at h; cases h

end

theorem shapeAll_ok_all_eq : ∀ (bs : List Buf) (t : List Nat) (rest : List (List Nat)),
    shapeAll bs = Except.ok (t :: rest) → (∀ u ∈ rest, u = t) →
    ∀ b ∈ bs, shape b = Except.ok t
  | [], t, rest, h, _, b, hb => by simp [shapeAll] at h
  | b0 :: bs, t, rest, h, hall, b, hb => by
    unfold shapeAll at h
    cases hb0 : shape b0 with
    | error e => rw [hb0] at h; cases h
    | ok s =>
      rw [hb0] at h
      dsimp only at h
      cases hbs : shapeAll bs with
      | error e => rw [hbs] at h; cases h
      | ok ss =>
        rw [hbs] at h
        dsimp only at h
        obtain ⟨hst, hssrest⟩ : s = t ∧ ss = rest := by
          have := Except.ok.inj h
          exact ⟨(List.cons.inj this).1, (List.cons.inj this).2⟩
        subst hst
        subst hssrest
        rcases List.mem_cons.mp hb with rfl | hmem
        · exact hb0
        · cases ss with
          | nil =>
            obtain rfl := shapeAll_ok_nil bs hbs
            cases hmem
          | cons t2 rest2 =>
            have ht2 : t2 = s := hall t2 (List.mem_cons_self _ _)
            have hrest2 : ∀ u ∈ rest2, u = t2 := by
              intro u hu
              rw [ht2]
              exact hall u (List.mem_cons_of_mem _ hu)
            have := shapeAll_ok_all_eq bs t2 rest2 hbs hrest2 b hmem
            rw [this, ht2]

theorem shapeAll_const : ∀ (bs : List Buf) (s0 : List Nat),
    (∀ b ∈ bs, shape b = Except.ok s0) →
    shapeAll bs = Except.ok (List.replicate bs.length s0)
  | [], s0, _ => rfl
  | b :: bs, s0, h => by
    unfold shapeAll
    rw [h b (List.mem_cons_self _ _)]
    dsimp only
    rw [shapeAll_const bs s0 fun x hx => h x (List.mem_cons_of_mem _ hx)]
    rfl

/-- C10: the recursive shape computation succeeds on a nested sequence
exactly when the sequence is non-empty and all its elements themselves
have one identical shape; whenever it fails — on an empty sequence, on
ragged elements, or on a ragged element deeper down — the failure is the
assertion error, and no shape is returned. -/
theorem shape_rejects_ragged (things : List Buf) :
    ((∃ s, shape (Buf.pylist things) = Except.ok s)
      ↔ things ≠ [] ∧ ∃ s0, ∀ b ∈ things, shape b = Except.ok s0)
    ∧ (∀ e, shape (Buf.pylist things) = Except.error e → e = "AssertionError") := by
  constructor
  · constructor
    · rintro ⟨s, hs⟩
      unfold shape at hs
      cases hall : shapeAll things with
      | error e =>
        rw [hall] at hs
        cases hs
      | ok ss =>
        rw [hall] at hs
        cases ss with
        | nil =>
          dsimp only at hs
          cases hs
        | cons t rest =>
          dsimp only at hs
          by_cases hb : rest.all fun u => u == t
          · constructor
            · intro hnil
              subst hnil
              simp [shapeAll] at hall
            · refine ⟨t, ?_⟩
              apply shapeAll_ok_all_eq things t rest hall
              intro u hu
              exact eq_of_beq (List.all_eq_true.mp hb u hu)
          · rw [if_neg hb] at hs
            cases hs
    · rintro ⟨hne, s0, hall⟩
      refine ⟨things.length :: s0, ?_⟩
      unfold shape
      rw [shapeAll_const things s0 hall]
      cases things with
      | nil => exact absurd rfl hne
      | cons b bs =>
        rw [List.length_cons, List.replicate_succ]
        dsimp only
        rw [if_pos]
        exact List.all_eq_true.mpr fun u hu =>
          beq_iff_eq.mpr (List.eq_of_mem_replicate hu)
  · intro e h
    exact shape_error_assertion (Buf.pylist things) e h

end RealRIRs
